import Mathlib

set_option maxRecDepth 10000

/-!
Verification of the subprocess output-streaming and result-reconciliation
pipeline of the MultiAgent financial analyst backend.

The development shallowly embeds the relevant parts of
`dist/services/pythonService.js` (output demultiplexing, the `close`-handler
result resolver, the text-scraping fallback parser, memo-path extraction) and
of `src/routes/analysis.ts` (the streaming session state machine) as
executable Lean definitions, and proves or refutes the specification claims
about them.

Strings are modelled as `List Char`; JavaScript numbers are modelled as exact
unreduced fractions (`JsNum`), which is faithful for the integer-valued and
decimal inputs the claims exercise; the file system is modelled as a partial
map from paths to file contents; wall-clock timestamps are passed in as
explicit `Nat` arguments.
-/

namespace MAFA

/-- Convert a string literal to the `List Char` representation used
throughout the embedding. -/
def strL (s : String) : List Char := s.toList

/-- Whitespace as recognised by JavaScript `trim` and the regex class `\s`
(ASCII part, which is all the source's inputs exercise). -/
def isWsJs (c : Char) : Bool :=
  c = ' ' || c = '\t' || c = '\n' || c = '\r' || c = '\x0b' || c = '\x0c'

/-- JavaScript `String.prototype.trim` on char lists. -/
def trimL (cs : List Char) : List Char :=
  ((cs.dropWhile isWsJs).reverse.dropWhile isWsJs).reverse

/-- Lower-case a char list (`String.prototype.toLowerCase`, ASCII). -/
def lowerL (cs : List Char) : List Char := cs.map Char.toLower

/-- JavaScript `String.prototype.split` with a single-character separator:
keeps empty segments, always returns at least one segment. -/
def splitOnChar (sep : Char) : List Char → List (List Char)
  | [] => [[]]
  | c :: t =>
    match splitOnChar sep t with
    | [] => [[]]
    | r :: rs => if c = sep then [] :: r :: rs else (c :: r) :: rs

/-- JavaScript `String.prototype.indexOf`: index of the first occurrence of
`needle` in `hay`, `none` standing for `-1`. -/
def findSub : List Char → List Char → Option Nat
  | [], needle => if needle = [] then some 0 else none
  | c :: t, needle =>
    if needle.isPrefixOf (c :: t) then some 0 else (findSub t needle).map (· + 1)

/-- JavaScript `String.prototype.includes`. -/
def containsSub (hay needle : List Char) : Bool := (findSub hay needle).isSome

/-- Case-insensitive first-occurrence search (used to embed `/.../i` regex
scans whose pattern is a literal). -/
def findSubCI (hay needle : List Char) : Option Nat :=
  findSub (lowerL hay) (lowerL needle)

/-- Split `cs` at the first occurrence of character `b`: returns the part
before it and, when `b` occurs, the part after it. -/
def breakAtChar (b : Char) : List Char → (List Char × Option (List Char))
  | [] => ([], none)
  | c :: t =>
    if c = b then ([], some t)
    else
      match breakAtChar b t with
      | (p, r) => (c :: p, r)

/-- Join segments with a separator (JavaScript `Array.prototype.join`). -/
def joinWith (sep : List Char) : List (List Char) → List Char
  | [] => []
  | [x] => x
  | x :: y :: t => x ++ sep ++ joinWith sep (y :: t)

/-- Case-insensitive literal prefix match: if (ASCII-lower-cased) `cs` starts
with (lower-cased) `lit`, return the remainder of `cs`. -/
def stripPrefixCI : List Char → List Char → Option (List Char)
  | [], cs => some cs
  | _, [] => none
  | l :: lt, c :: ct =>
    if c.toLower = l.toLower then stripPrefixCI lt ct else none

/-- Decimal digits of a natural number (with fuel, most significant first). -/
def natDigitsAux : Nat → Nat → List Char
  | 0, _ => []
  | fuel + 1, n =>
    if n < 10 then [Char.ofNat (48 + n)]
    else natDigitsAux fuel (n / 10) ++ [Char.ofNat (48 + n % 10)]

/-- Render an integer in decimal, as JavaScript template interpolation of a
number does. -/
def intToChars (i : Int) : List Char :=
  if i < 0 then '-' :: natDigitsAux (i.natAbs + 1) i.natAbs
  else natDigitsAux (i.natAbs + 1) i.natAbs

/-- Exact model of the JavaScript numbers the source manipulates: an
unreduced fraction `n / d` with `d > 0` by construction.  The decimal
literals and divisions-by-100 the claims exercise are exact in both binary
floating point and here, so fraction arithmetic is a faithful embedding. -/
structure JsNum where
  n : Int
  d : Int
  deriving DecidableEq

/-- The integer `m` as a `JsNum`. -/
def JsNum.ofInt (m : Int) : JsNum := ⟨m, 1⟩

/-- Numeric (value) equality of two `JsNum`s, by cross multiplication. -/
def JsNum.eqv (a b : JsNum) : Bool := a.n * b.d == b.n * a.d

/-- Division of a `JsNum` by a nonzero integer (the source only divides by
the literal `100`). -/
def JsNum.divInt (a : JsNum) (k : Int) : JsNum := ⟨a.n, a.d * k⟩

/-- Consume a maximal run of decimal digits, returning the accumulated
value, the number of digits consumed and the remainder. -/
def takeDigitsAux (acc k : Nat) : List Char → (Nat × Nat × List Char)
  | [] => (acc, k, [])
  | c :: t =>
    if c.isDigit then takeDigitsAux (acc * 10 + (c.toNat - 48)) (k + 1) t
    else (acc, k, c :: t)

/-- JavaScript `parseFloat` restricted to the shapes the source's regex
groups can produce (optional sign, digits, optional decimal point and
digits; parsing stops at the first character that cannot extend a number).
`none` models `NaN`. -/
def jsParseFloat (cs : List Char) : Option JsNum :=
  let sr : Int × List Char :=
    match cs with
    | '+' :: t => (1, t)
    | '-' :: t => (-1, t)
    | _ => (1, cs)
  match takeDigitsAux 0 0 sr.2 with
  | (ip, ik, rest) =>
    match rest with
    | '.' :: t =>
      match takeDigitsAux 0 0 t with
      | (fp, fk, _) =>
        if ik + fk = 0 then none
        else some ⟨sr.1 * ((ip : Int) * (10 : Int) ^ fk + (fp : Int)), (10 : Int) ^ fk⟩
    | _ => if ik = 0 then none else some ⟨sr.1 * (ip : Int), 1⟩

/-- JSON values as produced by `JSON.parse` (numbers as exact fractions). -/
inductive Json where
  | jnull
  | jbool (b : Bool)
  | jnum (q : JsNum)
  | jstr (s : List Char)
  | jarr (xs : List Json)
  | jobj (fields : List (List Char × Json))

/-- Failure modes of the JSON parser; each renders to a non-empty message,
as the V8 `JSON.parse` exception messages the source stores are non-empty. -/
inductive JParseErr where
  | unexpectedEnd
  | unexpectedChar (c : Char)
  | trailingChar (c : Char)
  | badEscape
  | badNumber
  deriving DecidableEq

/-- Human-readable message of a JSON parse failure (`error.message`). -/
def JParseErr.message : JParseErr → List Char
  | .unexpectedEnd => strL ("Unexpected end of JSON input")
  | .unexpectedChar c => strL ("Unexpected token ") ++ [c] ++ strL (" in JSON")
  | .trailingChar c => strL ("Unexpected non-whitespace character ") ++ [c] ++ strL (" after JSON")
  | .badEscape => strL ("Bad escaped character in JSON")
  | .badNumber => strL ("Bad number in JSON")

/-- JSON whitespace (space, tab, line feed, carriage return). -/
def skipJWs (cs : List Char) : List Char :=
  cs.dropWhile (fun c => c = ' ' || c = '\t' || c = '\n' || c = '\r')

/-- Value of a hexadecimal digit. -/
def hexVal (c : Char) : Option Nat :=
  if c.isDigit then some (c.toNat - 48)
  else if 'a' ≤ c && c ≤ 'f' then some (c.toNat - 87)
  else if 'A' ≤ c && c ≤ 'F' then some (c.toNat - 55)
  else none

/-- Parse the body of a JSON string after the opening quote, handling the
standard escapes (`\uXXXX` as a single code unit). -/
def parseJStrAux : Nat → List Char → List Char → Except JParseErr (List Char × List Char)
  | 0, _, _ => .error .unexpectedEnd
  | _ + 1, _, [] => .error .unexpectedEnd
  | fuel + 1, acc, c :: r =>
    if c = '"' then .ok (acc.reverse, r)
    else if c = '\\' then
      match r with
      | [] => .error .unexpectedEnd
      | e :: r2 =>
        if e = '"' then parseJStrAux fuel ('"' :: acc) r2
        else if e = '\\' then parseJStrAux fuel ('\\' :: acc) r2
        else if e = '/' then parseJStrAux fuel ('/' :: acc) r2
        else if e = 'b' then parseJStrAux fuel ('\x08' :: acc) r2
        else if e = 'f' then parseJStrAux fuel ('\x0c' :: acc) r2
        else if e = 'n' then parseJStrAux fuel ('\n' :: acc) r2
        else if e = 'r' then parseJStrAux fuel ('\r' :: acc) r2
        else if e = 't' then parseJStrAux fuel ('\t' :: acc) r2
        else if e = 'u' then
          match r2 with
          | h1 :: h2 :: h3 :: h4 :: r3 =>
            match hexVal h1, hexVal h2, hexVal h3, hexVal h4 with
            | some a, some b, some c, some d =>
              parseJStrAux fuel (Char.ofNat (((a * 16 + b) * 16 + c) * 16 + d) :: acc) r3
            | _, _, _, _ => .error .badEscape
          | _ => .error .unexpectedEnd
        else .error .badEscape
    else if c.toNat < 32 then .error (.unexpectedChar c)
    else parseJStrAux fuel (c :: acc) r

/-- Parse the body of a JSON string after the opening quote (the fuel
`cs.length + 1` dominates the characters consumed, so it never cuts off). -/
def parseJStr (acc : List Char) (cs : List Char) :
    Except JParseErr (List Char × List Char) :=
  parseJStrAux (cs.length + 1) acc cs

/-- Parse a JSON number (strict JSON grammar: no leading `+`, no leading
zeros, mandatory digits around the decimal point, optional exponent). -/
def parseJNum (cs : List Char) : Except JParseErr (JsNum × List Char) :=
  let sr : Int × List Char :=
    match cs with
    | '-' :: t => (-1, t)
    | _ => (1, cs)
  let leadZero : Bool :=
    match sr.2 with
    | '0' :: d :: _ => d.isDigit
    | _ => false
  match takeDigitsAux 0 0 sr.2 with
  | (ip, ik, rest1) =>
    if ik = 0 || leadZero then .error .badNumber
    else
      let fr : Nat × Nat × List Char :=
        match rest1 with
        | '.' :: t => takeDigitsAux 0 0 t
        | _ => (0, 0, rest1)
      match fr with
      | (fp, fk, rest2) =>
        if rest1 ≠ rest2 && fk = 0 then .error .badNumber
        else
          let ex : Int × Nat × List Char :=
            match rest2 with
            | 'e' :: '+' :: t => (1, 0, t)
            | 'e' :: '-' :: t => (-1, 0, t)
            | 'e' :: t => (1, 0, t)
            | 'E' :: '+' :: t => (1, 0, t)
            | 'E' :: '-' :: t => (-1, 0, t)
            | 'E' :: t => (1, 0, t)
            | _ => (1, 0, rest2)
          if rest2 = ex.2.2 then
            .ok (⟨sr.1 * ((ip : Int) * (10 : Int) ^ fk + (fp : Int)), (10 : Int) ^ fk⟩, rest2)
          else
            match takeDigitsAux 0 0 ex.2.2 with
            | (ev, ek, rest3) =>
              if ek = 0 then .error .badNumber
              else
                let mant : Int := sr.1 * ((ip : Int) * (10 : Int) ^ fk + (fp : Int))
                if ex.1 ≥ 0 then .ok (⟨mant * (10 : Int) ^ ev, (10 : Int) ^ fk⟩, rest3)
                else .ok (⟨mant, (10 : Int) ^ fk * (10 : Int) ^ ev⟩, rest3)

mutual

/-- Fuel-indexed recursive-descent parser for one JSON value, faithful to
`JSON.parse` (leading whitespace allowed, strict value grammar). -/
def parseJVal : Nat → List Char → Except JParseErr (Json × List Char)
  | 0, _ => .error .unexpectedEnd
  | fuel + 1, cs =>
    match skipJWs cs with
    | [] => .error .unexpectedEnd
    | '"' :: t =>
      match parseJStr [] t with
      | .ok (s, r) => .ok (.jstr s, r)
      | .error e => .error e
    | '\x7b' :: t =>
      match skipJWs t with
      | '\x7d' :: r => .ok (.jobj [], r)
      | u => parseJObjItems fuel [] u
    | '[' :: t =>
      match skipJWs t with
      | ']' :: r => .ok (.jarr [], r)
      | u => parseJArrItems fuel [] u
    | 't' :: t =>
      if (strL ("rue")).isPrefixOf t then .ok (.jbool true, t.drop 3)
      else .error (.unexpectedChar 't')
    | 'f' :: t =>
      if (strL ("alse")).isPrefixOf t then .ok (.jbool false, t.drop 4)
      else .error (.unexpectedChar 'f')
    | 'n' :: t =>
      if (strL ("ull")).isPrefixOf t then .ok (.jnull, t.drop 3)
      else .error (.unexpectedChar 'n')
    | c :: t =>
      if c = '-' || c.isDigit then
        match parseJNum (c :: t) with
        | .ok (q, r) => .ok (.jnum q, r)
        | .error e => .error e
      else .error (.unexpectedChar c)

/-- Parse the members of a JSON object after `{` (first member expected). -/
def parseJObjItems :
    Nat → List (List Char × Json) → List Char → Except JParseErr (Json × List Char)
  | 0, _, _ => .error .unexpectedEnd
  | fuel + 1, acc, cs =>
    match skipJWs cs with
    | '"' :: t =>
      match parseJStr [] t with
      | .error e => .error e
      | .ok (k, r1) =>
        match skipJWs r1 with
        | ':' :: r2 =>
          match parseJVal fuel r2 with
          | .error e => .error e
          | .ok (v, r3) =>
            match skipJWs r3 with
            | ',' :: r4 => parseJObjItems fuel (acc ++ [(k, v)]) r4
            | '\x7d' :: r4 => .ok (.jobj (acc ++ [(k, v)]), r4)
            | [] => .error .unexpectedEnd
            | c :: _ => .error (.unexpectedChar c)
        | [] => .error .unexpectedEnd
        | c :: _ => .error (.unexpectedChar c)
    | [] => .error .unexpectedEnd
    | c :: _ => .error (.unexpectedChar c)

/-- Parse the items of a JSON array after `[` (first item expected). -/
def parseJArrItems :
    Nat → List Json → List Char → Except JParseErr (Json × List Char)
  | 0, _, _ => .error .unexpectedEnd
  | fuel + 1, acc, cs =>
    match parseJVal fuel cs with
    | .error e => .error e
    | .ok (v, r1) =>
      match skipJWs r1 with
      | ',' :: r2 => parseJArrItems fuel (acc ++ [v]) r2
      | ']' :: r2 => .ok (.jarr (acc ++ [v]), r2)
      | [] => .error .unexpectedEnd
      | c :: _ => .error (.unexpectedChar c)

end

/-- `JSON.parse`: a single JSON value with nothing but whitespace around it.
The fuel `cs.length + 2` dominates the nesting depth of any parse, so it
never cuts off a well-formed input. -/
def jsonParse (cs : List Char) : Except JParseErr Json :=
  match parseJVal (cs.length + 2) cs with
  | .error e => .error e
  | .ok (j, rest) =>
    match skipJWs rest with
    | [] => .ok j
    | c :: _ => .error (.trailingChar c)

/-- Look up a key in a (first-occurrence-wins) JSON object field list. -/
def jFieldsLookup : List (List Char × Json) → List Char → Option Json
  | [], _ => none
  | (k, v) :: t, key => if k = key then some v else jFieldsLookup t key

/-- Property access `j[key]` on a parsed JSON value. -/
def jGet : Json → List Char → Option Json
  | .jobj fs, key => jFieldsLookup fs key
  | _, _ => none

/-- Property access that projects a string-valued field. -/
def jGetStr (j : Json) (key : List Char) : Option (List Char) :=
  match jGet j key with
  | some (.jstr s) => some s
  | _ => none

/-- Property access that projects a number-valued field. -/
def jGetNum (j : Json) (key : List Char) : Option JsNum :=
  match jGet j key with
  | some (.jnum q) => some q
  | _ => none

/-- Whether a parsed JSON value is an object in the JavaScript sense
(objects and arrays): only on these does a property assignment such as
`result.progressMessages = ...` succeed.  The service is an ES module and
therefore runs in strict mode, so assigning a property on a primitive
throws a `TypeError`, as it always does on `null`. -/
def Json.isObjLike : Json → Bool
  | .jobj _ => true
  | .jarr _ => true
  | _ => false

/-- The (non-empty) `TypeError` message thrown by
`result.progressMessages = progressMessages` when `result` is a parsed
non-object JSON value. -/
def assignThrowMessage : Json → List Char
  | .jnull => strL ("Cannot set properties of null (setting progressMessages)")
  | .jbool _ => strL ("Cannot create property progressMessages on boolean")
  | .jnum _ => strL ("Cannot create property progressMessages on number")
  | .jstr _ => strL ("Cannot create property progressMessages on string")
  | .jarr _ => strL ("Cannot create property progressMessages on array")
  | .jobj _ => strL ("Cannot create property progressMessages on object")

/-! ## Step-label extraction and progress events

Embeds the stdout line classifier of `pythonService.js`: the regex
`/\[([^\]]+)\]/` takes the text from the first `[` that is followed by a
later `]` with at least one character in between (the character class can
absorb further `[`s but never a `]`, so the match runs to the first `]`
after that `[`; an empty `[]` makes the scan resume right after the `[`). -/

/-- First bracketed token of a line, per the regex `/\[([^\]]+)\]/`. -/
def firstBracketTok : List Char → Option (List Char)
  | [] => none
  | c :: t =>
    if c = '[' then
      match breakAtChar ']' t with
      | (content, some _) =>
        if content = [] then firstBracketTok t else some content
      | (_, none) => none
    else firstBracketTok t

/-- One progress event (`ProgressData` in `pythonService.d.ts`). -/
structure ProgressData where
  step : List Char
  message : List Char
  timestamp : Nat
  deriving DecidableEq

/-- Classification of one completed stdout segment (`pythonService.js`,
stdout `data` handler): step from the first bracketed token, else
`"system"`; trimmed text as message. -/
def classifyLine (line : List Char) (now : Nat) : ProgressData :=
  ⟨(firstBracketTok line).getD (strL ("system")), trimL line, now⟩

/-- The segments a stdout chunk is split into: `chunk.split('\n')` filtered
to the segments that are non-blank after trimming (the handler's
`filter((line) => line.trim())`). -/
def chunkLines (chunk : List Char) : List (List Char) :=
  (splitOnChar '\n' chunk).filter (fun l => trimL l ≠ [])

/-- Progress events produced by one stdout `data` chunk.  The source splits
each chunk on its own, with no carry-over of a trailing partial line. -/
def chunkEvents (chunk : List Char) (now : Nat) : List ProgressData :=
  (chunkLines chunk).map (fun l => classifyLine l now)

/-- Progress events produced by a whole sequence of stdout chunks (each
chunk processed independently, in arrival order). -/
def streamEvents (chunks : List (List Char)) (now : Nat) : List ProgressData :=
  match chunks with
  | [] => []
  | c :: t => chunkEvents c now ++ streamEvents t now

/-! ## Job output state: the stdout and stderr `data` handlers -/

/-- The per-job mutable state owned by `runAnalysis` in `pythonService.js`:
the accumulating raw buffers, the in-memory progress transcript and the
first-output flag. -/
structure JobState where
  stdoutBuf : List Char
  stderrBuf : List Char
  progressMessages : List ProgressData
  processStarted : Bool
  deriving DecidableEq

/-- Job state at the start of a run. -/
def initJob : JobState := ⟨[], [], [], false⟩

/-- The stdout `data` handler: accumulates the raw chunk, splits it on
newlines, classifies every non-blank segment, appends the events to
`progressMessages` whether or not a sink is attached, and emits them (plus
a one-off first-output system event) to the sink when one is attached.
Returns the new state and the events delivered to the sink. -/
def onStdoutData (hasSink : Bool) (st : JobState) (chunk : List Char) (now : Nat) :
    JobState × List ProgressData :=
  let startEvts : List ProgressData :=
    if !st.processStarted && hasSink then
      [⟨strL ("system"), strL ("Python process is running and producing output..."), now⟩]
    else []
  let evts := chunkEvents chunk now
  (⟨st.stdoutBuf ++ chunk, st.stderrBuf, st.progressMessages ++ evts, true⟩,
   if hasSink then startEvts ++ evts else [])

/-- The stderr `data` handler: always accumulates the raw chunk; when the
trimmed chunk is non-empty AND a sink is attached, one event with step
`"error"` and an `"Error: "`-prefixed message is emitted to the sink and
appended to `progressMessages`.  With no sink the transcript is untouched. -/
def onStderrData (hasSink : Bool) (st : JobState) (chunk : List Char) (now : Nat) :
    JobState × List ProgressData :=
  let st1 : JobState := ⟨st.stdoutBuf, st.stderrBuf ++ chunk, st.progressMessages, st.processStarted⟩
  if trimL chunk ≠ [] && hasSink then
    let ev : ProgressData := ⟨strL ("error"), strL ("Error: ") ++ trimL chunk, now⟩
    (⟨st1.stdoutBuf, st1.stderrBuf, st1.progressMessages ++ [ev], st1.processStarted⟩, [ev])
  else (st1, [])

/-! ## Text-scraping fallback parser (`parseTextOutput`) -/

/-- A regex word character, `\w`. -/
def isWordChar (c : Char) : Bool := c.isAlpha || c.isDigit || c = '_'

/-- A character of the class `[\d.]`. -/
def isNumDot (c : Char) : Bool := c.isDigit || c = '.'

/-- Attempt, at the current position, the pattern
`lit` (case-insensitive literal) `\s*` `(cls+)`; returns the captured run. -/
def litRunHere (lit : List Char) (cls : Char → Bool) (cs : List Char) :
    Option (List Char) :=
  match stripPrefixCI lit cs with
  | none => none
  | some rest =>
    let run := (rest.dropWhile isWsJs).takeWhile cls
    if run = [] then none else some run

/-- Leftmost match of `lit` `\s*` `(cls+)` in the text, resuming the scan at
the next position on a failed attempt, as the regex engine does. -/
def litRunScan (lit : List Char) (cls : Char → Bool) : List Char → Option (List Char)
  | [] => none
  | c :: t =>
    match litRunHere lit cls (c :: t) with
    | some run => some run
    | none => litRunScan lit cls t

/-- `extractValue(output, /Recommendation:\s*(\w+)/i)` with its `.trim()`
(the captured `\w+` run contains no whitespace, so the trim is the
identity). -/
def extractRecommendation (output : List Char) : Option (List Char) :=
  litRunScan (strL ("Recommendation:")) isWordChar output

/-- `extractValue(output, /Confidence Score:\s*([\d.]+)/i)`. -/
def extractConfidence (output : List Char) : Option (List Char) :=
  litRunScan (strL ("Confidence Score:")) isNumDot output

/-- The `Scenarios:` section captured by
`/Scenarios:([\s\S]*?)(?=\nInvestment memo|$)/i`: the text after the first
case-insensitive `Scenarios:` up to the first case-insensitive
`\nInvestment memo`, or to the end of the string when there is none (the
lazy quantifier stops at the first position where the lookahead holds). -/
def scenariosSection (output : List Char) : Option (List Char) :=
  match findSubCI output (strL ("Scenarios:")) with
  | none => none
  | some i =>
    let after := output.drop (i + (strL ("Scenarios:")).length)
    match findSubCI after (strL ("\nInvestment memo")) with
    | some j => some (after.take j)
    | none => some after

/-- Attempt, at the current position, the scenario pattern
`name[^:]*:\s*([+-]?[\d.]+)%[^,]*,\s*(\d+)%` (case-insensitive `name`).
Every quantified class here is disjoint from the character that must follow
it, so the greedy regex semantics are deterministic: `[^:]*` runs to the
first `:`, `[\d.]+` to the `%`, `[^,]*` to the first `,`.  Returns the two
captured number strings. -/
def scenTryHere (name : List Char) (cs : List Char) :
    Option (List Char × List Char) :=
  match stripPrefixCI name cs with
  | none => none
  | some r1 =>
    match breakAtChar ':' r1 with
    | (_, none) => none
    | (_, some r2) =>
      let r3 := r2.dropWhile isWsJs
      let sgn : List Char × List Char :=
        match r3 with
        | '+' :: t => (['+'], t)
        | '-' :: t => (['-'], t)
        | _ => ([], r3)
      let run1 := sgn.2.takeWhile isNumDot
      if run1 = [] then none
      else
        match sgn.2.drop run1.length with
        | '%' :: r5 =>
          match breakAtChar ',' r5 with
          | (_, none) => none
          | (_, some r6) =>
            let r7 := r6.dropWhile isWsJs
            let run2 := r7.takeWhile Char.isDigit
            if run2 = [] then none
            else
              match r7.drop run2.length with
              | '%' :: _ => some (sgn.1 ++ run1, run2)
              | _ => none
        | _ => none

/-- Leftmost match of the scenario pattern in the section text. -/
def scenScan (name : List Char) : List Char → Option (List Char × List Char)
  | [] => none
  | c :: t =>
    match scenTryHere name (c :: t) with
    | some g => some g
    | none => scenScan name t

/-- One scenario record of the text parser.  The source field `return` is a
Lean keyword and is embedded as `ret`; `prob` keeps its name.  `none`
models the `NaN` a failed `parseFloat` would store. -/
structure ScenarioVal where
  ret : Option JsNum
  prob : Option JsNum
  deriving DecidableEq

/-- Result record of `parseTextOutput` (its `progressMessages: []` field is
attached later by the resolver and omitted here). -/
structure TextResult where
  recommendation : List Char
  confidence_score : JsNum
  scenarios : List (List Char × ScenarioVal)
  memo : List Char
  deriving DecidableEq

/-- The scenario mapping built by `parseTextOutput`: for each of bull, base
and bear whose pattern matches the section, an entry whose `return` and
`prob` are the captured numbers each divided by 100. -/
def scenariosOf (output : List Char) : List (List Char × ScenarioVal) :=
  match scenariosSection output with
  | none => []
  | some sect =>
    (([strL ("bull"), strL ("base"), strL ("bear")]).foldl (fun acc nm =>
      match scenScan nm sect with
      | some g =>
        acc ++ [(nm, ⟨(jsParseFloat g.1).map (fun q => q.divInt 100),
                      (jsParseFloat g.2).map (fun q => q.divInt 100)⟩)]
      | none => acc) [])

/-- `parseTextOutput` of `pythonService.js`: heuristic extraction of the
recommendation word, the confidence score (`parseFloat(... || '0') || 0`,
so an absent field or `NaN` becomes `0`) and the scenario mapping. -/
def parseTextOutput (output : List Char) : TextResult :=
  { recommendation := (extractRecommendation output).getD []
    confidence_score :=
      match extractConfidence output with
      | none => JsNum.ofInt 0
      | some s =>
        match jsParseFloat s with
        | none => JsNum.ofInt 0
        | some q => if q.n = 0 then JsNum.ofInt 0 else q
    scenarios := scenariosOf output
    memo := [] }

/-! ## Memo-file path extraction and the path model

Paths are modelled POSIX-style (`path.sep = '/'`, `path.resolve` on
`'..'`-only relative parts popping trailing segments). -/

/-- Path segments of an absolute POSIX path. -/
def splitSegs (p : List Char) : List (List Char) :=
  (splitOnChar '/' p).filter (fun s => s ≠ [])

/-- Rebuild an absolute POSIX path from segments. -/
def joinSegsAbs (segs : List (List Char)) : List Char :=
  match segs with
  | [] => ['/']
  | _ => segs.foldl (fun acc s => acc ++ '/' :: s) []

/-- `path.resolve(dirname, '../..' ...)`: drop the last `n` segments. -/
def pathResolveUp (dirname : List Char) (n : Nat) : List Char :=
  joinSegsAbs ((splitSegs dirname).take ((splitSegs dirname).length - n))

/-- The `projectRoot` computed at the top of `runAnalysis`
(`path.resolve(__dirname, '../..')`) and passed to `spawn` as `cwd`. -/
def spawnProjectRoot (dirname : List Char) : List Char := pathResolveUp dirname 2

/-- The `projectRoot` computed inside `extractMemoPath`
(`path.resolve(__dirname, '../../../..')`). -/
def memoProjectRoot (dirname : List Char) : List Char := pathResolveUp dirname 4

/-- `path.join` for an absolute root and a well-formed relative path. -/
def pathJoin (root rel : List Char) : List Char := root ++ '/' :: rel

/-- Attempt, at the current position, the memo-line pattern
`Investment memo saved to:\s*(outputs[\/\\][^\s\n]+)` (case-insensitive);
the capture keeps the original characters of the match. -/
def memoTryHere (cs : List Char) : Option (List Char) :=
  match stripPrefixCI (strL ("Investment memo saved to:")) cs with
  | none => none
  | some r1 =>
    let r2 := r1.dropWhile isWsJs
    match stripPrefixCI (strL ("outputs")) r2 with
    | none => none
    | some r3 =>
      match r3 with
      | c :: t =>
        if c = '/' || c = '\\' then
          let run := t.takeWhile (fun d => !isWsJs d)
          if run = [] then none else some (r2.take 7 ++ c :: run)
        else none
      | [] => none

/-- Leftmost match of the memo-line pattern in the stdout buffer. -/
def memoRelScan : List Char → Option (List Char)
  | [] => none
  | c :: t =>
    match memoTryHere (c :: t) with
    | some g => some g
    | none => memoRelScan t

/-- `extractMemoPath` of `pythonService.js`: on a memo line, the captured
relative path (with `/` replaced by `path.sep`, the identity here) joined
to the directory FOUR levels above `__dirname` — `path.resolve(__dirname,
'../../../..')` — which the code's comment calls the project root. -/
def extractMemoPath (dirname : List Char) (output : List Char) : Option (List Char) :=
  match memoRelScan output with
  | some rel => some (pathJoin (memoProjectRoot dirname) rel)
  | none => none

/-! ## Result resolver: the `close` handler of `runAnalysis` -/

/-- The sentinel markers the external program prints around its JSON
payload.  `startMarker` is 23 characters long. -/
def startMarker : List Char := strL ("===JSON_OUTPUT_START===")

/-- The closing sentinel marker. -/
def endMarker : List Char := strL ("===JSON_OUTPUT_END===")

/-- JavaScript `String.prototype.substring` (clamps and swaps its
arguments). -/
def jsSubstring (cs : List Char) (a b : Nat) : List Char :=
  (cs.take (max a b)).drop (min a b)

/-- The text handed to `JSON.parse` on the sentinel path: when both markers
occur, `stdout.substring(jsonStart + 24, jsonEnd).trim()` — note the `24`
against the 23-character start marker. -/
def sentinelJsonText (stdout : List Char) : Option (List Char) :=
  match findSub stdout startMarker, findSub stdout endMarker with
  | some i, some j => some (trimL (jsSubstring stdout (i + 24) j))
  | _, _ => none

/-- Index of the last occurrence of a character. -/
def lastIdxOfChar (c : Char) : List Char → Option Nat
  | [] => none
  | a :: t =>
    match lastIdxOfChar c t with
    | some i => some (i + 1)
    | none => if a = c then some 0 else none

/-- The text handed to `JSON.parse` on the fallback path:
`stdout.match(/\{[\s\S]*\}/)`, i.e. from the first `{` to the last `}`
(greedy), when the latter comes after the former. -/
def bareJsonSpan (stdout : List Char) : Option (List Char) :=
  match findSub stdout ['\x7b'], lastIdxOfChar '\x7d' stdout with
  | some i, some j => if i < j then some ((stdout.take (j + 1)).drop i) else none
  | _, _ => none

/-- The structured text the resolver will try to `JSON.parse`, if any:
sentinel extraction first, bare-JSON span second. -/
def structuredJsonText (stdout : List Char) : Option (List Char) :=
  match sentinelJsonText stdout with
  | some s => some s
  | none => bareJsonSpan stdout

/-- The error rejected for a non-zero exit code (`Error` with `code`,
`stdout` and `stderr` attached). -/
structure ProcessExitError where
  code : Int
  message : List Char
  stdout : List Char
  stderr : List Char
  deriving DecidableEq

/-- Message derivation of the non-zero-exit branch (`pythonService.js`
lines 146-172): if `stderr` is non-empty, take the LAST non-blank stderr
line and use it unless IT contains `Traceback`, in which case all non-blank
stderr lines are joined with `'; '`; if `stderr` is empty but `stdout` is
not, the last non-blank stdout line containing a case-insensitive
`error`/`exception`/`failed`; else the generic message. -/
def exitErrorMessage (code : Int) (stdout stderr : List Char) : List Char :=
  let generic := strL ("Python process exited with code ") ++ intToChars code
  if stderr ≠ [] then
    let stderrLines := (splitOnChar '\n' stderr).filter (fun l => trimL l ≠ [])
    match stderrLines.getLast? with
    | some lastLine =>
      if containsSub lastLine (strL ("Traceback")) then joinWith (strL ("; ")) stderrLines
      else lastLine
    | none => generic
  else if stdout ≠ [] then
    let ls := (splitOnChar '\n' stdout).filter (fun l =>
      trimL l ≠ [] &&
        (containsSub (lowerL l) (strL ("error")) ||
         containsSub (lowerL l) (strL ("exception")) ||
         containsSub (lowerL l) (strL ("failed"))))
    match ls.getLast? with
    | some l => l
    | none => generic
  else generic

/-- The payload of a successful resolution: either the object `JSON.parse`
returned, or the record the text scraper built. -/
inductive RPayload where
  | jsonPayload (j : Json)
  | textPayload (t : TextResult)

/-- The value passed to `resolve(...)`: the payload, the memo-file contents
when a memo path was found and readable (overriding any payload `memo`),
the attached progress transcript, and `parseError` when structured parsing
threw. -/
structure Resolved where
  payload : RPayload
  memoOverride : Option (List Char)
  progressMessages : List ProgressData
  parseError : Option (List Char)

/-- The memo attachment step shared by every success path: if the stdout
mentions a memo path, resolve it (against `memoProjectRoot`) and read it;
`fs` maps a path to the contents of an existing readable file. -/
def attachMemo (fs : List Char → Option (List Char)) (dirname stdout : List Char) :
    Option (List Char) :=
  match extractMemoPath dirname stdout with
  | some p => fs p
  | none => none

/-- The `close` handler of `runAnalysis` (`pythonService.js` lines
142-255): reject with a derived message on non-zero exit; otherwise try the
sentinel JSON, then a bare JSON span, then the text scraper.  Two
operations inside the `try` can throw on these inputs: `JSON.parse` on
malformed text, and — since the module runs in strict mode — the property
assignment `result.progressMessages = progressMessages` when the parse
returned a non-object value (a primitive or `null`; line 192's memo
assignment throws the same way but its inner `catch` absorbs it first).
Either throw is caught, falls back to the text scraper and records the
thrown error's message as `parseError`. -/
def runAnalysisOnClose (fs : List Char → Option (List Char)) (dirname : List Char)
    (code : Int) (stdout stderr : List Char) (progressMessages : List ProgressData) :
    Except ProcessExitError Resolved :=
  if code ≠ 0 then
    .error ⟨code, exitErrorMessage code stdout stderr, stdout, stderr⟩
  else
    match structuredJsonText stdout with
    | some s =>
      match jsonParse s with
      | .ok j =>
        if j.isObjLike then
          .ok ⟨.jsonPayload j, attachMemo fs dirname stdout, progressMessages, none⟩
        else
          .ok ⟨.textPayload (parseTextOutput stdout), attachMemo fs dirname stdout,
               progressMessages, some (assignThrowMessage j)⟩
      | .error e =>
        .ok ⟨.textPayload (parseTextOutput stdout), attachMemo fs dirname stdout,
             progressMessages, some e.message⟩
    | none =>
      .ok ⟨.textPayload (parseTextOutput stdout), attachMemo fs dirname stdout,
           progressMessages, none⟩

/-- The `recommendation` field of a resolved payload, when it is a
string. -/
def RPayload.recommendationOf : RPayload → Option (List Char)
  | .jsonPayload j => jGetStr j (strL ("recommendation"))
  | .textPayload t => some t.recommendation

/-- `parseError` of a resolution, `none` on the reject path. -/
def resolvedParseError (x : Except ProcessExitError Resolved) : Option (List Char) :=
  match x with
  | .ok r => r.parseError
  | .error _ => none

/-- `recommendation` of a resolution, `none` on the reject path. -/
def resolvedRecommendation (x : Except ProcessExitError Resolved) : Option (List Char) :=
  match x with
  | .ok r => r.payload.recommendationOf
  | .error _ => none

/-- The rejected message of a resolution, `none` on the success path. -/
def resolvedErrMessage (x : Except ProcessExitError Resolved) : Option (List Char) :=
  match x with
  | .ok _ => none
  | .error e => some e.message

/-! ## Streaming session state machine (`POST /api/analyze/stream`)

The handler in `src/routes/analysis.ts` is embedded as a state machine.
State fields mirror the handler's mutable flags and the relevant transport
facts (`res.writableEnded` is set by `res.end()`; `res.destroyed`/
`res.closed` are modelled by one `destroyed` flag set when the client side
closes the transport).  Environment events model the interval callback
firing, `sendProgress` being invoked by the service, the transport events
`req.on('close')` / `res.on('close'|'finish'|'error')`, the promise
settling (a JavaScript promise settles at most once, so the resolve events
are no-ops once `jobSettled`), and the 60-minute watchdog firing (its
timer is cleared when the subprocess exits, hence it too only acts while
the job promise is unsettled; real time is abstracted away).  Writes and
the subprocess `kill()` are recorded as actions. -/

/-- Session state: handler flags plus transport and job status. -/
structure SessState where
  connectionAlive : Bool
  responseEnded : Bool
  keepAliveActive : Bool
  writableEnded : Bool
  destroyed : Bool
  jobSettled : Bool
  killed : Bool
  deriving DecidableEq

/-- State right after the handler set up the SSE stream, wrote the initial
progress event, started the keep-alive interval and registered the
callbacks. -/
def initSession : SessState :=
  ⟨true, false, true, false, false, false, false⟩

/-- Environment events driving one streaming session. -/
inductive SEvent where
  | keepAliveTick
  | progressLine
  | reqCloseSignal
  | clientClose
  | resFinish
  | resError
  | resolveOk
  | resolveErr
  | watchdogFire
  deriving DecidableEq

/-- Observable actions of one step. -/
inductive SAction where
  | writeProgress
  | writeKeepAlive
  | writeComplete
  | writeError
  | killProc
  deriving DecidableEq

/-- The `res.destroyed || res.closed || res.writableEnded` check the
handler uses before writing. -/
def transportGone (s : SessState) : Bool := s.destroyed || s.writableEnded

/-- Shared flag update of every "connection is dead" branch: clear the
flags and stop the keep-alive interval. -/
def markClosed (s : SessState) : SessState :=
  { s with connectionAlive := false, responseEnded := true, keepAliveActive := false }

/-- One step of the session: the handler code run for one event, returning
the successor state and the actions performed. -/
def stepS (s : SessState) : SEvent → SessState × List SAction
  | .keepAliveTick =>
    if !s.keepAliveActive then (s, [])
    else if !s.connectionAlive || s.responseEnded then
      ({ s with keepAliveActive := false }, [])
    else if transportGone s then (markClosed s, [])
    else (s, [.writeKeepAlive])
  | .progressLine =>
    if s.responseEnded then (s, [])
    else if transportGone s then
      (if s.connectionAlive then markClosed s else s, [])
    else ({ s with connectionAlive := true }, [.writeProgress])
  | .reqCloseSignal =>
    if s.connectionAlive && transportGone s then (markClosed s, []) else (s, [])
  | .clientClose =>
    let s1 := { s with destroyed := true }
    (if s1.connectionAlive then markClosed s1 else s1, [])
  | .resFinish => (markClosed s, [])
  | .resError => (markClosed s, [])
  | .resolveOk =>
    if s.jobSettled then (s, [])
    else ({ s with jobSettled := true, keepAliveActive := false, writableEnded := true },
          [.writeComplete])
  | .resolveErr =>
    if s.jobSettled then (s, [])
    else ({ s with jobSettled := true, keepAliveActive := false, writableEnded := true },
          [.writeError])
  | .watchdogFire =>
    if s.jobSettled then (s, [])
    else ({ s with jobSettled := true, keepAliveActive := false, writableEnded := true,
                   killed := true },
          [.killProc, .writeError])

/-- Run a session over an event sequence, collecting the action trace. -/
def runS (s : SessState) : List SEvent → SessState × List SAction
  | [] => (s, [])
  | e :: es =>
    match stepS s e with
    | (s1, as1) =>
      match runS s1 es with
      | (s2, as2) => (s2, as1 ++ as2)

/-- Run a session, annotating each event with its actions and whether each
action was written to a transport that was still open (delivered) at the
time. -/
def runAnnot (s : SessState) : List SEvent → List (SEvent × List (SAction × Bool))
  | [] => []
  | e :: es =>
    match stepS s e with
    | (s1, as1) => (e, as1.map (fun a => (a, !transportGone s))) :: runAnnot s1 es

/-- Terminal SSE events: `complete` and `error`. -/
def isTerminal : SAction → Bool
  | .writeComplete => true
  | .writeError => true
  | _ => false

/-- Stream writes that must cease after a terminal event. -/
def isStreamWrite : SAction → Bool
  | .writeProgress => true
  | .writeKeepAlive => true
  | _ => false

/-- Holds of an action trace in which, once a terminal event occurs, it is
the last write of any kind (hence also: at most one terminal event). -/
def terminalIsFinal : List SAction → Bool
  | [] => true
  | a :: t =>
    if isTerminal a then t.all (fun b => !isStreamWrite b && !isTerminal b)
    else terminalIsFinal t

/-! ## Auxiliary observation functions and concrete sample inputs -/

/-- Lookup in the scenario mapping (object key access). -/
def scenLookup : List (List Char × ScenarioVal) → List Char → Option ScenarioVal
  | [], _ => none
  | (k, v) :: t, key => if k = key then some v else scenLookup t key

/-- The mapping entries one scenario name contributes: captured numbers,
each divided by 100 (empty when the pattern does not match). -/
def scenEntry (sect nm : List Char) : List (List Char × ScenarioVal) :=
  match scenScan nm sect with
  | some g =>
    [(nm, ⟨(jsParseFloat g.1).map (fun q => q.divInt 100),
           (jsParseFloat g.2).map (fun q => q.divInt 100)⟩)]
  | none => []

/-- The non-blank stderr lines the exit-message derivation works on. -/
def stderrNonBlankLines (stderr : List Char) : List (List Char) :=
  (splitOnChar '\n' stderr).filter (fun l => trimL l ≠ [])

/-- The stdout lines the exit-message derivation falls back to: non-blank
and containing a case-insensitive `error`/`exception`/`failed`. -/
def stdoutErrorKeywordLines (stdout : List Char) : List (List Char) :=
  (splitOnChar '\n' stdout).filter (fun l =>
    trimL l ≠ [] &&
      (containsSub (lowerL l) (strL ("error")) ||
       containsSub (lowerL l) (strL ("exception")) ||
       containsSub (lowerL l) (strL ("failed"))))

/-- An empty file system (no memo file exists). -/
def fsEmpty : List Char → Option (List Char) := fun _ => none

/-- A representative `__dirname` of the compiled service
(`<checkout>/MultiAgent Financial analyst/dist/services`). -/
def sampleDirname : List Char :=
  strL ("/srv/analyst/MultiAgent Financial analyst/dist/services")

/-- The specification's sentinel example: a newline separates the start
marker from the JSON payload. -/
def stdoutSentinelNewline : List Char :=
  strL ("===JSON_OUTPUT_START===\n\x7b\"recommendation\":\"BUY\",\"confidence_score\":0.8,\"scenarios\":\x7b\x7d\x7d\n===JSON_OUTPUT_END===")

/-- The same payload with its first character immediately following the
start marker (no separator). -/
def stdoutSentinelImmediate : List Char :=
  strL ("===JSON_OUTPUT_START===\x7b\"recommendation\":\"BUY\",\"confidence_score\":0.8,\"scenarios\":\x7b\x7d\x7d===JSON_OUTPUT_END===")

/-- Malformed JSON between the sentinels. -/
def stdoutMalformedSentinel : List Char :=
  strL ("===JSON_OUTPUT_START===\n\x7bbad\x7d\n===JSON_OUTPUT_END===")

/-- A well-formed JSON primitive between the sentinels: `JSON.parse`
succeeds but the strict-mode property assignment on the number throws. -/
def stdoutPrimitiveSentinel : List Char :=
  strL ("===JSON_OUTPUT_START===\n5\n===JSON_OUTPUT_END===")

/-- The specification's stderr example: a traceback line followed by the
actual error line. -/
def stderrTracebackFirst : List Char :=
  strL ("Traceback (most recent call last):\nValueError: bad ticker")

/-- Stderr whose LAST non-blank line is the traceback marker line. -/
def stderrTracebackLast : List Char :=
  strL ("ValueError: bad\nTraceback (most recent call last):")

/-- A heuristic-path stdout with a scenarios section (no braces, so no
structured parse applies). -/
def stdoutScenarios : List Char :=
  strL ("Recommendation: BUY\nConfidence Score: 0.75\nScenarios:\nbull case: +25% return, 25% probability\nbear case: -10% downside, 25% probability\n")

/-- A stdout line announcing the memo artifact. -/
def stdoutMemoLine : List Char :=
  strL ("Investment memo saved to: outputs/AAPL_memo.md\n")

/-- A payload whose first character immediately follows the start marker. -/
def payloadAfterMarker : List Char := strL ("A\x7b\x7d")

/-- One logical stdout line delivered split across two chunks. -/
def chunksSplit : List (List Char) := [strL ("[Agent] hel"), strL ("lo\n")]

/-- The same bytes delivered as a single chunk. -/
def chunksWhole : List (List Char) := [strL ("[Agent] hello\n")]

/-- A non-blank stderr chunk. -/
def stderrChunkSample : List Char := strL ("boom\n")

/-- The scenarios section `scenariosSection` extracts from
`stdoutScenarios`. -/
def stdoutScenariosSect : List Char :=
  strL ("\nbull case: +25% return, 25% probability\nbear case: -10% downside, 25% probability\n")

/-! ## Helper lemmas -/

/-- Once the job promise has settled (and the response was ended), no step
of the session performs any action, and both facts persist. -/
lemma stepS_settled (s : SessState) (e : SEvent)
    (h1 : s.jobSettled = true) (h2 : s.writableEnded = true) :
    (stepS s e).2 = [] ∧ (stepS s e).1.jobSettled = true ∧
      (stepS s e).1.writableEnded = true := by
  cases e <;>
    simp only [stepS, transportGone, markClosed, h1, h2] <;>
    (try split_ifs <;> simp_all [markClosed]) <;>
    simp_all [markClosed]

/-- A session whose job promise has settled produces an empty trace. -/
lemma runS_settled (evs : List SEvent) (s : SessState)
    (h1 : s.jobSettled = true) (h2 : s.writableEnded = true) :
    (runS s evs).2 = [] := by
  induction evs generalizing s with
  | nil => simp [runS]
  | cons e es ih =>
    obtain ⟨ha, hb, hc⟩ := stepS_settled s e h1 h2
    simp [runS, ha, ih (stepS s e).1 hb hc]

/-- `terminalIsFinal` skips a leading non-terminal action. -/
lemma terminalIsFinal_cons_nonterminal (a : SAction) (l : List SAction)
    (h : isTerminal a = false) : terminalIsFinal (a :: l) = terminalIsFinal l := by
  simp [terminalIsFinal, h]

/-- From any state with the job promise unsettled and the response not yet
ended, every run's trace makes a terminal event final. -/
lemma terminalIsFinal_runS (evs : List SEvent) (s : SessState)
    (h1 : s.jobSettled = false) (h2 : s.writableEnded = false) :
    terminalIsFinal (runS s evs).2 = true := by
  induction evs generalizing s with
  | nil => simp [runS, terminalIsFinal]
  | cons e es ih =>
    cases e with
    | keepAliveTick =>
      simp only [runS, stepS]
      split
      · simpa [runS] using ih s h1 h2
      · split
        · simpa [runS] using ih _ (by simp [h1]) (by simp [h2])
        · split
          · simpa [runS] using ih _ (by simp [markClosed, h1]) (by simp [markClosed, h2])
          · simpa [runS, terminalIsFinal, isTerminal] using ih s h1 h2
    | progressLine =>
      simp only [runS, stepS]
      split
      · simpa [runS] using ih s h1 h2
      · split
        · split
          · simpa [runS] using ih _ (by simp [markClosed, h1]) (by simp [markClosed, h2])
          · simpa [runS] using ih s h1 h2
        · simpa [runS, terminalIsFinal, isTerminal] using ih _ (by simp [h1]) (by simp [h2])
    | reqCloseSignal =>
      simp only [runS, stepS]
      split
      · simpa [runS] using ih _ (by simp [markClosed, h1]) (by simp [markClosed, h2])
      · simpa [runS] using ih s h1 h2
    | clientClose =>
      simp only [runS, stepS]
      split
      · simpa [runS] using ih _ (by simp [markClosed, h1]) (by simp [markClosed, h2])
      · simpa [runS] using ih _ (by simp [h1]) (by simp [h2])
    | resFinish =>
      simp only [runS, stepS]
      simpa [runS] using ih _ (by simp [markClosed, h1]) (by simp [markClosed, h2])
    | resError =>
      simp only [runS, stepS]
      simpa [runS] using ih _ (by simp [markClosed, h1]) (by simp [markClosed, h2])
    | resolveOk =>
      have hz := runS_settled es
        ({ s with jobSettled := true, keepAliveActive := false, writableEnded := true })
        (by simp) (by simp)
      simp [runS, stepS, h1, hz, terminalIsFinal, isTerminal]
    | resolveErr =>
      have hz := runS_settled es
        ({ s with jobSettled := true, keepAliveActive := false, writableEnded := true })
        (by simp) (by simp)
      simp [runS, stepS, h1, hz, terminalIsFinal, isTerminal]
    | watchdogFire =>
      have hz := runS_settled es
        ({ s with jobSettled := true, keepAliveActive := false, writableEnded := true,
                  killed := true })
        (by simp) (by simp)
      simp [runS, stepS, h1, hz, terminalIsFinal, isTerminal, isStreamWrite]

/-- A trace whose terminal event is final contains at most one terminal
event. -/
lemma count_le_one_of_final (l : List SAction) (h : terminalIsFinal l = true) :
    (l.filter isTerminal).length ≤ 1 := by
  induction l with
  | nil => simp
  | cons a t ih =>
    by_cases ha : isTerminal a = true
    · simp only [terminalIsFinal, ha, if_true] at h
      have hnil : t.filter isTerminal = [] := by
        rw [List.filter_eq_nil_iff]
        intro b hb
        have hball := List.all_eq_true.mp h b hb
        simp only [Bool.and_eq_true, Bool.not_eq_true'] at hball
        simp [hball.2]
      simp [List.filter_cons, ha, hnil]
    · simp only [Bool.not_eq_true] at ha
      rw [terminalIsFinal_cons_nonterminal a t ha] at h
      simpa [List.filter_cons, ha] using ih h

/-- The single step that can emit `killProc` is the watchdog firing: the
close handlers and every other callback only update flags and timers. -/
lemma stepS_kill_only_watchdog (s : SessState) (e : SEvent)
    (h : SAction.killProc ∈ (stepS s e).2) : e = SEvent.watchdogFire := by
  cases e <;> simp only [stepS, transportGone, markClosed] at h <;>
    (try split_ifs at h) <;> simp_all

/-- Lift of `stepS_kill_only_watchdog` to annotated runs. -/
lemma runAnnot_kill_only_watchdog (evs : List SEvent) (s : SessState) :
    ∀ p ∈ runAnnot s evs, SAction.killProc ∈ p.2.map Prod.fst →
      p.1 = SEvent.watchdogFire := by
  induction evs generalizing s with
  | nil => simp [runAnnot]
  | cons e es ih =>
    intro p hp hk
    simp only [runAnnot, List.mem_cons] at hp
    rcases hp with rfl | hp'
    · simp only [List.map_map] at hk
      have hk2 : SAction.killProc ∈ (stepS s e).2 := by
        simpa using hk
      exact stepS_kill_only_watchdog s e hk2
    · exact ih _ _ hp' hk

/-- A destroyed transport stays destroyed through every step. -/
lemma stepS_destroyed_mono (s : SessState) (e : SEvent) (h : s.destroyed = true) :
    (stepS s e).1.destroyed = true := by
  cases e <;> simp only [stepS, transportGone, markClosed] <;>
    (try split_ifs) <;> simp_all [markClosed]

/-- After the transport is destroyed, no action of the remaining run is
delivered. -/
lemma runAnnot_undelivered (evs : List SEvent) (s : SessState) (h : s.destroyed = true) :
    ∀ p ∈ runAnnot s evs, ∀ ab ∈ p.2, ab.2 = false := by
  induction evs generalizing s with
  | nil => simp [runAnnot]
  | cons e es ih =>
    intro p hp ab hab
    simp only [runAnnot, List.mem_cons] at hp
    rcases hp with rfl | hp'
    · simp only [List.mem_map] at hab
      obtain ⟨a, _, rfl⟩ := hab
      simp [transportGone, h]
    · exact ih _ (stepS_destroyed_mono s e h) _ hp' _ hab

/-- Every event except the watchdog leaves the kill flag unchanged. -/
lemma stepS_killed_eq (s : SessState) (e : SEvent) (h : e ≠ SEvent.watchdogFire) :
    (stepS s e).1.killed = s.killed := by
  cases e <;> simp only [stepS, transportGone, markClosed] <;>
    (try split_ifs) <;> simp_all [markClosed]

/-- A run without a watchdog event never changes the kill flag. -/
lemma runS_killed_eq (evs : List SEvent) (s : SessState)
    (h : SEvent.watchdogFire ∉ evs) : (runS s evs).1.killed = s.killed := by
  induction evs generalizing s with
  | nil => simp [runS]
  | cons e es ih =>
    simp only [List.mem_cons, not_or] at h
    have h1 := stepS_killed_eq s e (fun he => h.1 he.symm)
    simp only [runS]
    rw [show (match stepS s e with
      | (s1, as1) => match runS s1 es with
        | (s2, as2) => (s2, as1 ++ as2) : SessState × List SAction).1 =
        (runS (stepS s e).1 es).1 from rfl]
    rw [ih _ h.2, h1]

/-- Final states compose over concatenated event sequences. -/
lemma runS_fst_append (xs ys : List SEvent) (s : SessState) :
    (runS s (xs ++ ys)).1 = (runS (runS s xs).1 ys).1 := by
  induction xs generalizing s with
  | nil => simp [runS]
  | cons x xt ih =>
    simp only [List.cons_append, runS]
    exact ih (stepS s x).1

/-- A client close leaves the transport destroyed. -/
lemma stepS_clientClose_destroyed (s : SessState) :
    (stepS s SEvent.clientClose).1.destroyed = true := by
  simp only [stepS, markClosed]
  split_ifs <;> simp [markClosed]

/-- Every JSON parse failure message is non-empty (as the `JSON.parse`
exception messages the source stores are). -/
lemma JParseErr_message_ne_nil (e : JParseErr) : e.message ≠ [] := by
  cases e with
  | unexpectedEnd => decide
  | unexpectedChar c =>
    intro h
    simp only [JParseErr.message] at h
    rw [show strL ("Unexpected token ") = 'U' :: strL ("nexpected token ") from by decide] at h
    simp at h
  | trailingChar c =>
    intro h
    simp only [JParseErr.message] at h
    rw [show strL ("Unexpected non-whitespace character ") =
      'U' :: strL ("nexpected non-whitespace character ") from by decide] at h
    simp at h
  | badEscape => decide
  | badNumber => decide

/-- Every strict-mode assignment `TypeError` message is non-empty. -/
lemma assignThrowMessage_ne_nil (j : Json) : assignThrowMessage j ≠ [] := by
  cases j <;> simp only [assignThrowMessage] <;> decide

/-- The scenario mapping is the bull, base and bear entries in that order. -/
lemma scenariosOf_decomp (output sect : List Char)
    (hs : scenariosSection output = some sect) :
    scenariosOf output =
      scenEntry sect (strL ("bull")) ++ scenEntry sect (strL ("base")) ++
        scenEntry sect (strL ("bear")) := by
  unfold scenariosOf
  simp only [hs]
  rcases hb : scenScan (strL ("bull")) sect with _ | g1 <;>
    rcases hc : scenScan (strL ("base")) sect with _ | g2 <;>
      rcases hd : scenScan (strL ("bear")) sect with _ | g3 <;>
        simp [scenEntry, hb, hc, hd]

/-- Splitting on a character that does not occur yields the whole list. -/
lemma splitOnChar_no_sep (sep : Char) (c : List Char) (h : sep ∉ c) :
    splitOnChar sep c = [c] := by
  induction c with
  | nil => rfl
  | cons a t ih =>
    simp only [List.mem_cons, not_or] at h
    have ha : ¬a = sep := fun hh => h.1 hh.symm
    simp [splitOnChar, ih h.2, ha]

/-! ## Claim theorems -/

/-- C1: for every streaming session, at most one terminal event
(`complete` or `error`) is ever written to its transport, and once a
terminal event has been written no further `progress` or keep-alive writes
occur, even if late progress lines arrive afterwards.  Both parts are
captured by `terminalIsFinal`: over every event sequence (keep-alive
ticks, progress lines — including ones after the job settles — transport
closures and promise settlement), the trace has at most one terminal
action, and nothing is written after it. -/
theorem stream_terminal_write_unique_and_final (evs : List SEvent) :
    ((runS initSession evs).2.filter isTerminal).length ≤ 1 ∧
      terminalIsFinal (runS initSession evs).2 = true := by
  have h := terminalIsFinal_runS evs initSession rfl rfl
  exact ⟨count_le_one_of_final _ h, h⟩

/-- C2: a transport closure never terminates the subprocess.  First
conjunct: in every annotated run, a `killProc` action can only be produced
by the watchdog event (the close handlers only update flags and clear the
keep-alive interval).  Second conjunct: for every session in which the
client closes the transport and no watchdog fires, the process is never
killed, and every action attempted after the closure — in particular the
terminal `complete`/`error` of the eventually-settling job — is written to
an already-closed transport, i.e. the result is discarded (the model is
total, so no exception is raised; in the source the write lands on the
registered `res.on('error')` handler). -/
theorem client_close_never_kills_subprocess :
    (∀ evs p, p ∈ runAnnot initSession evs →
        SAction.killProc ∈ p.2.map Prod.fst → p.1 = SEvent.watchdogFire) ∧
    (∀ pre post, SEvent.watchdogFire ∉ pre → SEvent.watchdogFire ∉ post →
      (runS initSession (pre ++ SEvent.clientClose :: post)).1.killed = false ∧
      ∀ p ∈ runAnnot (runS initSession (pre ++ [SEvent.clientClose])).1 post,
        ∀ ab ∈ p.2, ab.2 = false) := by
  refine ⟨fun evs p hp => runAnnot_kill_only_watchdog evs initSession p hp, ?_⟩
  intro pre post hpre hpost
  constructor
  · have hmem : SEvent.watchdogFire ∉ pre ++ SEvent.clientClose :: post := by
      simp only [List.mem_append, List.mem_cons, not_or]
      exact ⟨hpre, by simp, hpost⟩
    simpa [initSession] using runS_killed_eq _ initSession hmem
  · have hdest : (runS initSession (pre ++ [SEvent.clientClose])).1.destroyed = true := by
      rw [runS_fst_append]
      simp only [runS]
      exact stepS_clientClose_destroyed (runS initSession pre).1
    exact runAnnot_undelivered post _ hdest

/-- Witness for C2 at a concrete session: one progress line, then the
client closes, then the job resolves; no kill happens and the terminal
write is not delivered. -/
theorem client_close_never_kills_subprocess_witness :
    (runS initSession
        ([SEvent.progressLine] ++ SEvent.clientClose :: [SEvent.resolveOk])).1.killed = false ∧
    (∀ p ∈ runAnnot
        (runS initSession ([SEvent.progressLine] ++ [SEvent.clientClose])).1
        [SEvent.resolveOk], ∀ ab ∈ p.2, ab.2 = false) :=
  client_close_never_kills_subprocess.2 [SEvent.progressLine] [SEvent.resolveOk]
    (by decide) (by decide)

/-- C3 counterexample: for a stdout whose payload immediately follows the
start marker, the claim's "parse the trimmed substring strictly between
the markers" fails on the code: the strictly-between text (indices 23 to
85) parses to an object with recommendation `BUY`, but the code resolves
with a populated `parseError` and an empty heuristic recommendation. -/
theorem sentinel_between_markers_cex :
    (resolvedParseError
        (runAnalysisOnClose fsEmpty sampleDirname 0 stdoutSentinelImmediate [] [])).isSome =
      true ∧
    resolvedRecommendation
        (runAnalysisOnClose fsEmpty sampleDirname 0 stdoutSentinelImmediate [] []) =
      some [] ∧
    (match jsonParse (trimL (jsSubstring stdoutSentinelImmediate 23 85)) with
     | .ok j => jGetStr j (strL ("recommendation"))
     | .error _ => none) = some (strL ("BUY")) := by decide

/-- C3 amended: the parsed text starts 24 characters past the start
marker's index (not 23, the marker's length), i.e. the first character
between the markers is dropped; on the specification's example, where a
newline separates marker and payload, the result still has recommendation
`BUY` and no `parseError`. -/
theorem sentinel_parse_drops_first_char_after_marker :
    (∀ stdout i j, findSub stdout startMarker = some i →
        findSub stdout endMarker = some j →
        sentinelJsonText stdout = some (trimL (jsSubstring stdout (i + 24) j))) ∧
    resolvedRecommendation
        (runAnalysisOnClose fsEmpty sampleDirname 0 stdoutSentinelNewline [] []) =
      some (strL ("BUY")) ∧
    resolvedParseError
        (runAnalysisOnClose fsEmpty sampleDirname 0 stdoutSentinelNewline [] []) = none := by
  refine ⟨?_, by decide, by decide⟩
  intro stdout i j h1 h2
  unfold sentinelJsonText
  simp only [h1, h2]

/-- Witness for the amended C3 at the specification's example. -/
theorem sentinel_parse_drops_first_char_after_marker_witness :
    sentinelJsonText stdoutSentinelNewline =
      some (trimL (jsSubstring stdoutSentinelNewline (0 + 24) 87)) ∧
    trimL (jsSubstring stdoutSentinelNewline (0 + 24) 87) =
      strL ("\x7b\"recommendation\":\"BUY\",\"confidence_score\":0.8,\"scenarios\":\x7b\x7d\x7d") := by
  refine ⟨sentinel_parse_drops_first_char_after_marker.1 stdoutSentinelNewline 0 87
    (by decide) (by decide), by decide⟩

/-- C4 counterexample: with stderr whose LAST non-blank line contains the
traceback marker, the claim's rule ("prefer the last non-empty stderr line
that does not contain a traceback marker", here `ValueError: bad`) differs
from the code, which checks only the last line and joins all lines. -/
theorem exit_message_traceback_last_line_cex :
    resolvedErrMessage (runAnalysisOnClose fsEmpty sampleDirname 1 [] stderrTracebackLast []) =
      some (strL ("ValueError: bad; Traceback (most recent call last):")) ∧
    (stderrNonBlankLines stderrTracebackLast).reverse.find?
        (fun l => !containsSub l (strL ("Traceback"))) = some (strL ("ValueError: bad")) ∧
    strL ("ValueError: bad; Traceback (most recent call last):") ≠
      strL ("ValueError: bad") := by decide

/-- C4 amended: on exit code `≠ 0` the resolver rejects with
`ProcessExitError{code, message, stdout, stderr}` where the message is
derived as the code does: the LAST non-blank stderr line if IT lacks
`Traceback`; else all non-blank stderr lines joined with `'; '`; when
stderr is empty, the last non-blank stdout line containing a
case-insensitive error/exception/failed; else the generic message.  (On the
specification's example the last line is `ValueError: bad ticker`, which
lacks the marker, so the example's expectation still holds — see the
witness.) -/
theorem exit_message_derivation_amended (fs : List Char → Option (List Char))
    (dirname : List Char) (code : Int) (stdout stderr : List Char)
    (pm : List ProgressData) (h : code ≠ 0) :
    runAnalysisOnClose fs dirname code stdout stderr pm =
      .error ⟨code, exitErrorMessage code stdout stderr, stdout, stderr⟩ ∧
    (∀ last, stderr ≠ [] → (stderrNonBlankLines stderr).getLast? = some last →
      containsSub last (strL ("Traceback")) = false →
      exitErrorMessage code stdout stderr = last) ∧
    (∀ last, stderr ≠ [] → (stderrNonBlankLines stderr).getLast? = some last →
      containsSub last (strL ("Traceback")) = true →
      exitErrorMessage code stdout stderr =
        joinWith (strL ("; ")) (stderrNonBlankLines stderr)) ∧
    (stderr = [] → ∀ l, stdout ≠ [] → (stdoutErrorKeywordLines stdout).getLast? = some l →
      exitErrorMessage code stdout stderr = l) ∧
    (((stderr ≠ [] ∧ (stderrNonBlankLines stderr).getLast? = none) ∨
      (stderr = [] ∧ stdout ≠ [] ∧ (stdoutErrorKeywordLines stdout).getLast? = none) ∨
      (stderr = [] ∧ stdout = [])) →
      exitErrorMessage code stdout stderr =
        strL ("Python process exited with code ") ++ intToChars code) := by
  refine ⟨?_, ?_, ?_, ?_, ?_⟩
  · unfold runAnalysisOnClose
    rw [if_pos h]
  · intro last hne hlast htb
    unfold stderrNonBlankLines at hlast
    unfold exitErrorMessage
    rw [if_pos hne]
    simp only [hlast, htb]
    simp
  · intro last hne hlast htb
    unfold stderrNonBlankLines at hlast
    unfold exitErrorMessage stderrNonBlankLines
    rw [if_pos hne]
    simp only [hlast, htb]
    simp
  · intro he l hso hlast
    unfold stdoutErrorKeywordLines at hlast
    unfold exitErrorMessage
    subst he
    simp only [ne_eq, not_true_eq_false, if_false, reduceIte]
    rw [if_pos hso]
    simp only [hlast]
  · rintro (⟨hne, hnone⟩ | ⟨he, hso, hnone⟩ | ⟨he, ho⟩)
    · unfold stderrNonBlankLines at hnone
      unfold exitErrorMessage
      rw [if_pos hne]
      simp only [hnone]
    · unfold stdoutErrorKeywordLines at hnone
      unfold exitErrorMessage
      subst he
      simp only [ne_eq, not_true_eq_false, if_false, reduceIte]
      rw [if_pos hso]
      simp only [hnone]
    · subst he
      subst ho
      unfold exitErrorMessage
      simp

/-- Witness for the amended C4 at the specification's example: exit
code 1 with `Traceback...\nValueError: bad ticker` rejects with exactly
`ValueError: bad ticker`. -/
theorem exit_message_derivation_amended_witness :
    resolvedErrMessage
        (runAnalysisOnClose fsEmpty sampleDirname 1 [] stderrTracebackFirst []) =
      some (strL ("ValueError: bad ticker")) := by
  rw [(exit_message_derivation_amended fsEmpty sampleDirname 1 [] stderrTracebackFirst []
    (by norm_num)).1]
  decide

/-- C5 counterexample: with the well-formed JSON primitive `5` between
the sentinels, the structured parse SUCCEEDS (no throw on malformed
input), yet the resolver populates `parseError` and falls back to the
heuristic payload — because the strict-mode assignment
`result.progressMessages = progressMessages` throws a `TypeError` on the
primitive.  So `parseError` is not populated "exactly when a structured
parse throws on malformed input". -/
theorem parse_error_without_parse_throw_cex :
    sentinelJsonText stdoutPrimitiveSentinel = some (strL ("5")) ∧
    (match jsonParse (strL ("5")) with
     | .ok _ => true
     | .error _ => false) = true ∧
    (resolvedParseError
        (runAnalysisOnClose fsEmpty sampleDirname 0 stdoutPrimitiveSentinel [] [])).isSome =
      true ∧
    resolvedParseError
        (runAnalysisOnClose fsEmpty sampleDirname 0 stdoutPrimitiveSentinel [] []) =
      some (strL ("Cannot create property progressMessages on number")) := by decide

/-- C5 amended: on exit code 0, `parseError` is populated exactly when
the `try` block throws, which happens in exactly two cases: the selected
structured text (sentinel extraction, else bare-JSON span) fails to parse
(malformed JSON), or it parses to a non-object value (a primitive or
`null`) on which the strict-mode property assignment
`result.progressMessages = ...` throws.  In both cases the resolver falls
back to the heuristic text parser and stores the thrown error's non-empty
message; in every other successful resolution — object/array payload, or
the purely heuristic path with no structured text — `parseError` is
unset. -/
theorem parse_error_iff_try_block_throws
    (fs : List Char → Option (List Char)) (dirname stdout : List Char)
    (pm : List ProgressData) (r : Resolved)
    (h : runAnalysisOnClose fs dirname 0 stdout [] pm = .ok r) :
    (r.parseError = none ∧
      ((structuredJsonText stdout = none ∧
          r.payload = .textPayload (parseTextOutput stdout)) ∨
       (∃ s j, structuredJsonText stdout = some s ∧ jsonParse s = .ok j ∧
          j.isObjLike = true ∧ r.payload = .jsonPayload j))) ∨
    (∃ s e, structuredJsonText stdout = some s ∧ jsonParse s = .error e ∧
        r.parseError = some e.message ∧ e.message ≠ [] ∧
        r.payload = .textPayload (parseTextOutput stdout)) ∨
    (∃ s j, structuredJsonText stdout = some s ∧ jsonParse s = .ok j ∧
        j.isObjLike = false ∧ r.parseError = some (assignThrowMessage j) ∧
        assignThrowMessage j ≠ [] ∧
        r.payload = .textPayload (parseTextOutput stdout)) := by
  unfold runAnalysisOnClose at h
  rw [if_neg (by norm_num)] at h
  cases hst : structuredJsonText stdout with
  | none =>
    simp only [hst, Except.ok.injEq] at h
    rw [← h]
    exact Or.inl ⟨rfl, Or.inl ⟨rfl, rfl⟩⟩
  | some s =>
    cases hj : jsonParse s with
    | ok j =>
      cases ho : j.isObjLike with
      | true =>
        simp only [hst, hj, ho, if_true, Except.ok.injEq] at h
        rw [← h]
        exact Or.inl ⟨rfl, Or.inr ⟨s, j, rfl, hj, ho, rfl⟩⟩
      | false =>
        simp only [hst, hj, ho, Bool.false_eq_true, if_false, Except.ok.injEq] at h
        rw [← h]
        exact Or.inr (Or.inr ⟨s, j, rfl, hj, ho, rfl, assignThrowMessage_ne_nil j, rfl⟩)
    | error e =>
      simp only [hst, hj, Except.ok.injEq] at h
      rw [← h]
      exact Or.inr (Or.inl ⟨s, e, rfl, hj, rfl, JParseErr_message_ne_nil e, rfl⟩)

/-- Witness for the amended C5 at malformed sentinel JSON: the resolver
succeeds, the disjunction holds, and `parseError` is indeed populated. -/
theorem parse_error_iff_try_block_throws_witness :
    (∃ r, runAnalysisOnClose fsEmpty sampleDirname 0 stdoutMalformedSentinel [] [] =
        Except.ok r ∧
      ((r.parseError = none ∧
        ((structuredJsonText stdoutMalformedSentinel = none ∧
            r.payload = .textPayload (parseTextOutput stdoutMalformedSentinel)) ∨
         (∃ s j, structuredJsonText stdoutMalformedSentinel = some s ∧
            jsonParse s = .ok j ∧ j.isObjLike = true ∧ r.payload = .jsonPayload j))) ∨
       (∃ s e, structuredJsonText stdoutMalformedSentinel = some s ∧
          jsonParse s = .error e ∧ r.parseError = some e.message ∧ e.message ≠ [] ∧
          r.payload = .textPayload (parseTextOutput stdoutMalformedSentinel)) ∨
       (∃ s j, structuredJsonText stdoutMalformedSentinel = some s ∧
          jsonParse s = .ok j ∧ j.isObjLike = false ∧
          r.parseError = some (assignThrowMessage j) ∧ assignThrowMessage j ≠ [] ∧
          r.payload = .textPayload (parseTextOutput stdoutMalformedSentinel)))) ∧
    (resolvedParseError
        (runAnalysisOnClose fsEmpty sampleDirname 0 stdoutMalformedSentinel [] [])).isSome =
      true :=
  ⟨⟨_, rfl, parse_error_iff_try_block_throws fsEmpty sampleDirname
      stdoutMalformedSentinel [] _ rfl⟩, by decide⟩

/-- C6 counterexample: the same bytes chunked differently produce
different event sequences — a line split across two chunks is emitted as
two partial events, not assembled; so line assembly is NOT chunk-boundary
invariant. -/
theorem chunk_boundary_not_invariant_cex :
    chunksSplit.foldr (· ++ ·) [] = chunksWhole.foldr (· ++ ·) [] ∧
    streamEvents chunksSplit 5 ≠ streamEvents chunksWhole 5 ∧
    streamEvents chunksSplit 5 =
      [⟨strL ("Agent"), strL ("[Agent] hel"), 5⟩, ⟨strL ("system"), strL ("lo"), 5⟩] ∧
    streamEvents chunksWhole 5 = [⟨strL ("Agent"), strL ("[Agent] hello"), 5⟩] := by decide

/-- C6 amended: each `data` chunk is split on newlines and classified on
its own, with no trailing-partial-line carry between chunks (the event
stream is a homomorphism over chunk concatenation), and a non-blank chunk
without any newline is emitted immediately as one event even though its
line may be incomplete. -/
theorem chunk_events_processed_per_chunk (cs ds : List (List Char)) (now : Nat)
    (c : List Char) (h1 : ('\n') ∉ c) (h2 : trimL c ≠ []) :
    streamEvents (cs ++ ds) now = streamEvents cs now ++ streamEvents ds now ∧
    streamEvents [c] now = [classifyLine c now] := by
  constructor
  · induction cs with
    | nil => simp [streamEvents]
    | cons x xt ih => simp [streamEvents, ih, List.append_assoc]
  · simp [streamEvents, chunkEvents, chunkLines, splitOnChar_no_sep '\n' c h1, h2]

/-- Witness for the amended C6 at the split-line example. -/
theorem chunk_events_processed_per_chunk_witness :
    streamEvents (chunksSplit ++ chunksWhole) 5 =
      streamEvents chunksSplit 5 ++ streamEvents chunksWhole 5 ∧
    streamEvents [strL ("[Agent] hel")] 5 = [classifyLine (strL ("[Agent] hel")) 5] :=
  chunk_events_processed_per_chunk chunksSplit chunksWhole 5 (strL ("[Agent] hel"))
    (by decide) (by decide)

/-- C7 counterexample: a non-blank stderr chunk with NO progress sink
attached accumulates in the raw buffer but appends nothing to the
in-memory transcript, while the same chunk with a sink appends the
`"Error: "`-prefixed event — so the append does NOT happen regardless of
whether a sink is attached. -/
theorem stderr_transcript_gated_on_sink_cex :
    (onStderrData false initJob stderrChunkSample 3).1.stderrBuf = stderrChunkSample ∧
    (onStderrData false initJob stderrChunkSample 3).1.progressMessages = [] ∧
    (onStderrData true initJob stderrChunkSample 3).1.progressMessages =
      [⟨strL ("error"), strL ("Error: boom"), 3⟩] := by decide

/-- C7 amended: the raw stderr buffer always accumulates, but the
`step = "error"` ProgressEvent (one per CHUNK, message `"Error: " ++
trimmed chunk`) is emitted and appended to the transcript only when a
progress sink is attached; with no sink the transcript is untouched, and a
blank chunk appends nothing either way. -/
theorem stderr_event_emitted_only_with_sink (st : JobState) (chunk : List Char)
    (now : Nat) :
    (onStderrData false st chunk now).1.progressMessages = st.progressMessages ∧
    (onStderrData false st chunk now).2 = [] ∧
    (onStderrData false st chunk now).1.stderrBuf = st.stderrBuf ++ chunk ∧
    (trimL chunk ≠ [] →
      (onStderrData true st chunk now).1.progressMessages =
        st.progressMessages ++
          [⟨strL ("error"), strL ("Error: ") ++ trimL chunk, now⟩] ∧
      (onStderrData true st chunk now).2 =
        [⟨strL ("error"), strL ("Error: ") ++ trimL chunk, now⟩]) ∧
    (trimL chunk = [] →
      (onStderrData true st chunk now).1.progressMessages = st.progressMessages) := by
  refine ⟨by simp [onStderrData], by simp [onStderrData], by simp [onStderrData], ?_, ?_⟩
  · intro h
    simp [onStderrData, h]
  · intro h
    simp [onStderrData, h]

/-- Witness for the amended C7 at the sample chunk. -/
theorem stderr_event_emitted_only_with_sink_witness :
    (onStderrData false initJob stderrChunkSample 3).1.progressMessages = [] ∧
    (onStderrData true initJob stderrChunkSample 3).1.progressMessages =
      [⟨strL ("error"), strL ("Error: boom"), 3⟩] := by
  have h := stderr_event_emitted_only_with_sink initJob stderrChunkSample 3
  refine ⟨by rw [h.1]; decide, ?_⟩
  rw [(h.2.2.2.1 (by decide)).1]
  decide

/-- C8 (code bug): the memo path is joined to the directory FOUR levels
above `__dirname` (`extractMemoPath`'s own `projectRoot`), which differs
from the spawn `cwd` TWO levels above `__dirname` that the subprocess's
relative `outputs/...` path is actually relative to; the code's comments
call both directories "project root".  At the failing input the code reads
`/srv/outputs/AAPL_memo.md` instead of
`/srv/analyst/MultiAgent Financial analyst/outputs/AAPL_memo.md`. -/
theorem memo_path_resolved_four_levels_up :
    extractMemoPath sampleDirname stdoutMemoLine =
      some (strL ("/srv/outputs/AAPL_memo.md")) ∧
    spawnProjectRoot sampleDirname =
      strL ("/srv/analyst/MultiAgent Financial analyst") ∧
    memoProjectRoot sampleDirname ≠ spawnProjectRoot sampleDirname ∧
    extractMemoPath sampleDirname stdoutMemoLine ≠
      some (pathJoin (spawnProjectRoot sampleDirname) (strL ("outputs/AAPL_memo.md"))) := by
  decide

/-- C9 counterexample: for the bull scenario `+25% return, 25%
probability`, the matched numbers are 25 and 25, but the code stores
25/100 for both — the values are rescaled, not preserved as emitted. -/
theorem scenario_values_rescaled_cex :
    scenScan (strL ("bull")) stdoutScenariosSect = some (strL ("+25"), strL ("25")) ∧
    jsParseFloat (strL ("+25")) = some ⟨25, 1⟩ ∧
    scenLookup (parseTextOutput stdoutScenarios).scenarios (strL ("bull")) =
      some ⟨some ⟨25, 100⟩, some ⟨25, 100⟩⟩ ∧
    JsNum.eqv ⟨25, 100⟩ ⟨25, 1⟩ = false := by decide

/-- C9 amended: for every stdout whose scenarios section matches the
pattern for one of bull/base/bear, the stored `return` and `prob` are the
matched numbers each DIVIDED BY 100 (`parseFloat(match)/100`), not the
numbers as emitted. -/
theorem scenario_values_divided_by_100 (output sect nm g1 g2 : List Char)
    (hnm : nm = strL ("bull") ∨ nm = strL ("base") ∨ nm = strL ("bear"))
    (hs : scenariosSection output = some sect)
    (hm : scenScan nm sect = some (g1, g2)) :
    scenLookup (parseTextOutput output).scenarios nm =
      some ⟨(jsParseFloat g1).map (fun q => q.divInt 100),
            (jsParseFloat g2).map (fun q => q.divInt 100)⟩ := by
  have hdec := scenariosOf_decomp output sect hs
  have hscen : (parseTextOutput output).scenarios = scenariosOf output := rfl
  rw [hscen, hdec]
  rcases hnm with rfl | rfl | rfl
  · simp [scenEntry, hm, scenLookup]
  · rcases hb : scenScan (strL ("bull")) sect with _ | g <;>
      simp [scenEntry, hm, hb, scenLookup,
        (show ¬(strL ("bull") = strL ("base")) from by decide)]
  · rcases hb : scenScan (strL ("bull")) sect with _ | g <;>
      rcases hc : scenScan (strL ("base")) sect with _ | g' <;>
        simp [scenEntry, hm, hb, hc, scenLookup,
          (show ¬(strL ("bull") = strL ("bear")) from by decide),
          (show ¬(strL ("base") = strL ("bear")) from by decide)]

/-- Witness for the amended C9 at the sample scenarios text. -/
theorem scenario_values_divided_by_100_witness :
    scenLookup (parseTextOutput stdoutScenarios).scenarios (strL ("bull")) =
      some ⟨(jsParseFloat (strL ("+25"))).map (fun q => q.divInt 100),
            (jsParseFloat (strL ("25"))).map (fun q => q.divInt 100)⟩ ∧
    (jsParseFloat (strL ("+25"))).map (fun q => q.divInt 100) = some ⟨25, 100⟩ :=
  ⟨scenario_values_divided_by_100 stdoutScenarios stdoutScenariosSect (strL ("bull"))
      (strL ("+25")) (strL ("25")) (Or.inl rfl) (by decide) (by decide), by decide⟩

/-- C10: the start marker is 23 characters long while the substring handed
to `JSON.parse` begins 24 characters past its index; hence for every
stdout of the shape `startMarker ++ payload ++ endMarker` whose payload's
first character immediately follows the marker, that first character is
excluded from the parsed text. -/
theorem sentinel_offset_24_excludes_first_char (p : List Char) (hp : p ≠ [])
    (h1 : findSub (startMarker ++ p ++ endMarker) startMarker = some 0)
    (h2 : findSub (startMarker ++ p ++ endMarker) endMarker = some (23 + p.length)) :
    startMarker.length = 23 ∧
    sentinelJsonText (startMarker ++ p ++ endMarker) = some (trimL (p.drop 1)) := by
  have hl : 1 ≤ p.length := by
    cases p with
    | nil => exact absurd rfl hp
    | cons a t => simp
  refine ⟨by decide, ?_⟩
  unfold sentinelJsonText
  simp only [h1, h2]
  have hsm : startMarker.length = 23 := by decide
  have hfront : (startMarker ++ p).length = 23 + p.length := by
    simp [List.length_append, hsm]
  have htake : ((startMarker ++ p) ++ endMarker).take (23 + p.length) = startMarker ++ p := by
    rw [← hfront]
    exact List.take_left _ _
  have hdrop : (startMarker ++ p).drop 24 = p.drop 1 := by
    rw [List.drop_append_eq_append_drop]
    rw [List.drop_eq_nil_of_le (by rw [hsm]; omega)]
    rw [hsm]
    norm_num
  unfold jsSubstring
  have hmax : max (0 + 24) (23 + p.length) = 23 + p.length := by omega
  have hmin : min (0 + 24) (23 + p.length) = 24 := by omega
  rw [hmax, hmin, htake, hdrop]

/-- Witness for C10 at the payload `A{}`: the leading `A` is dropped and
the parsed text is `{}`. -/
theorem sentinel_offset_24_excludes_first_char_witness :
    startMarker.length = 23 ∧
    sentinelJsonText (startMarker ++ payloadAfterMarker ++ endMarker) =
      some (trimL (payloadAfterMarker.drop 1)) ∧
    trimL (payloadAfterMarker.drop 1) = strL ("\x7b\x7d") := by
  have h := sentinel_offset_24_excludes_first_char payloadAfterMarker
    (by decide) (by decide) (by decide)
  exact ⟨h.1, h.2, by decide⟩

end MAFA
